import Mathlib

/-!
Shallow embedding of the Linode Terraform provider resource
(resource_linode.go) and proofs about its specification claims.

Machine integers from the Go source are modelled as Lean Int (the values
involved never approach 64-bit overflow); fallible calls are modelled with
Except; the mutable schema.ResourceData sets are modelled as an explicit
assignment log; remote API calls issued by an operation are recorded in an
explicit trace list.
-/

namespace TfLinode

/-- Error taxonomy: each distinct fmt.Errorf site of resource_linode.go is
mapped onto the specification's error classes, tagged with a short site
name. -/
inductive LErr where
  | notFound (site : String)
  | constraint (site : String)
  | unsupported (site : String)
  | timedOutErr (site : String)
  | remote (site : String)
  | invariant (site : String)
deriving DecidableEq

/-- Kernel catalog entry (linodego.Kernel: KernelId, Label). -/
structure Kernel where
  kernelId : Int
  label : String
deriving DecidableEq

/-- Region catalog entry (linodego.DataCenter: DataCenterId, Location). -/
structure DataCenter where
  dataCenterId : Int
  location : String
deriving DecidableEq

/-- Plan catalog entry (linodego.LinodePlan: PlanId, RAM, Disk in GB). -/
structure LinodePlan where
  planId : Int
  ram : Int
  disk : Int
deriving DecidableEq

/-- Attached disk (linodego.Disk: DiskId, Type, Size in MB). The Go field
Type is rendered dtype here. -/
structure Disk where
  diskId : Int
  dtype : String
  size : Int
deriving DecidableEq

/-- Remote job (linodego.Job); only the completion timestamp presence
(HostFinishDt.IsSet) is relevant to the orchestrator. -/
structure Job where
  hostFinishDtSet : Bool
deriving DecidableEq

/-- Remote instance projection (linodego.Linode), restricted to the fields
the resource code reads. -/
structure LinodeRec where
  linodeId : Int
  label : String
  lpmDisplayGroup : String
  dataCenterId : Int
  planId : Int
  status : Int
  totalHD : Int
deriving DecidableEq

/-- Boot configuration (linodego.LinodeConfig), restricted to the fields
the resource code reads. -/
structure ConfigRec where
  configId : Int
  kernelId : Int
  helperDistro : Bool
  helperNetwork : Bool
deriving DecidableEq

/-- One address record (linodego.FullIPAddress: IsPublic is an int flag). -/
structure IpRec where
  isPublic : Int
  ipAddress : String
deriving DecidableEq

/-- Remote API calls that mutate or query remote state, as issued by the
operations modelled below. Used to trace which calls an operation made. -/
inductive RemoteCall where
  | linodeList (id : Int)
  | linodeUpdate (id : Int)
  | linodeResize (id planId : Int)
  | linodeBoot (id configId : Int)
  | diskResize (id diskId size : Int)
  | configList (id : Int)
  | configUpdate (configId : Int)
  | ipAddPrivate (id : Int)
  | linodeReboot (id : Int)
deriving DecidableEq

/-- boolToString from the source: renders a Go bool. -/
def boolToString (val : Bool) : String :=
  if val then "true" else "false"

/-! Byte-level string model: Go strings.HasPrefix and the regexp
latestKernelStrip = `\s*\(.*\)\s*` applied via ReplaceAllString. -/

/-- strStartsWith s p models Go strings.HasPrefix(s, p). -/
def strStartsWith (s p : String) : Bool :=
  p.data.isPrefixOf s.data

/-- Go regexp Perl class whitespace: [\t\n\f\r ]. -/
def isGoSpace (c : Char) : Bool :=
  c = ' ' || c = '\t' || c = '\n' || c = '\x0c' || c = '\r'

/-- Index of the last close paren in a character list, if any. -/
def lastCloseParen : List Char → Option Nat
  | [] => none
  | c :: cs =>
    match lastCloseParen cs with
    | some j => some (j + 1)
    | none => if c = ')' then some 0 else none

/-- Attempt to match the regexp `\s*\(.*\)\s*` anchored at the head of cs
(leftmost-first, greedy, with `.` not matching newline, as in Go's regexp
engine). On success returns the remainder after the match. -/
def tryMatchAt (cs : List Char) : Option (List Char) :=
  let ws := cs.takeWhile isGoSpace
  let rest := cs.drop ws.length
  match rest with
  | '(' :: t =>
    let seg := t.takeWhile (fun c => c ≠ '\n')
    match lastCloseParen seg with
    | some j =>
      let after := t.drop (j + 1)
      some (after.drop ((after.takeWhile isGoSpace).length))
    | none => none
  | _ => none

/-- Fuelled scan for ReplaceAllString with the empty replacement: each
leftmost match of the pattern is deleted and scanning resumes after it. -/
def goReplaceAllAux : Nat → List Char → List Char
  | 0, cs => cs
  | _ + 1, [] => []
  | n + 1, c :: cs =>
    match tryMatchAt (c :: cs) with
    | some rest => goReplaceAllAux n rest
    | none => c :: goReplaceAllAux n cs

/-- latestKernelStrip.ReplaceAllString(s, "") from the source init(). -/
def latestKernelStripAll (s : String) : String :=
  ⟨goReplaceAllAux s.data.length s.data⟩

/-! Reference catalog lookups (the code iterates over the
process-cached lists; the cached list is passed explicitly here). -/

/-- getKernelName body (loop over the cached kernel list): exact id match;
labels beginning "Latest" have the parenthesized qualifier stripped. -/
def getKernelName (ks : List Kernel) (kernelId : Int) : Except LErr String :=
  match ks with
  | [] => .error (.notFound "kernel-id")
  | k :: rest =>
    if k.kernelId = kernelId then
      if strStartsWith k.label "Latest" then
        .ok (latestKernelStripAll k.label)
      else
        .ok k.label
    else getKernelName rest kernelId

/-- getKernelID body: names beginning "Latest" are matched as a prefix of
the catalog label; other names by exact label equality. -/
def getKernelID (ks : List Kernel) (kernelName : String) : Except LErr Int :=
  match ks with
  | [] => .error (.notFound "kernel")
  | k :: rest =>
    if strStartsWith kernelName "Latest" then
      if strStartsWith k.label kernelName then .ok k.kernelId
      else getKernelID rest kernelName
    else
      if k.label = kernelName then .ok k.kernelId
      else getKernelID rest kernelName

/-- getRegionName body: first entry with the requested DataCenterId. -/
def getRegionName (rs : List DataCenter) (regionId : Int) : Except LErr String :=
  match rs with
  | [] => .error (.notFound "region-id")
  | r :: rest =>
    if r.dataCenterId = regionId then .ok r.location
    else getRegionName rest regionId

/-- getRegionID body: first entry with the requested Location. -/
def getRegionID (rs : List DataCenter) (regionName : String) : Except LErr Int :=
  match rs with
  | [] => .error (.notFound "region")
  | r :: rest =>
    if r.location = regionName then .ok r.dataCenterId
    else getRegionID rest regionName

/-- getSizeId body: first plan with the requested RAM. -/
def getSizeId (ps : List LinodePlan) (size : Int) : Except LErr Int :=
  match ps with
  | [] => .error (.notFound "plan-ram")
  | p :: rest =>
    if p.ram = size then .ok p.planId
    else getSizeId rest size

/-- getSize body: first plan with the requested PlanId. -/
def getSize (ps : List LinodePlan) (sizeId : Int) : Except LErr Int :=
  match ps with
  | [] => .error (.notFound "plan-id")
  | p :: rest =>
    if p.planId = sizeId then .ok p.ram
    else getSize rest sizeId

/-- getPlanDiskSize body: first plan with the requested PlanId, storage
returned in megabytes (Disk * 1024). -/
def getPlanDiskSize (ps : List LinodePlan) (planID : Int) : Except LErr Int :=
  match ps with
  | [] => .error (.notFound "plan-disk")
  | p :: rest =>
    if p.planId = planID then .ok (p.disk * 1024)
    else getPlanDiskSize rest planID

/-- getTotalDiskSize body: sum of the sizes of all attached disks. -/
def getTotalDiskSize (disks : List Disk) : Int :=
  disks.foldl (fun acc d => acc + d.size) 0

/-- getBiggestDisk body: fold keeping the strictly largest disk, starting
from id 0 / size 0. -/
def getBiggestDisk (disks : List Disk) : Int × Int :=
  disks.foldl
    (fun best d => if d.size > best.2 then (d.diskId, d.size) else best)
    (0, 0)

/-! Fallible wrappers: the Go helpers first ensure the cached list was
fetched (the fetch itself can fail), then run the pure lookup. The fetch
outcome is the Except-wrapped list. -/

/-- getKernelName including a possibly failed catalog fetch. -/
def getKernelNameF (r : Except LErr (List Kernel)) (kernelId : Int) : Except LErr String :=
  match r with
  | .error e => .error e
  | .ok ks => getKernelName ks kernelId

/-- getKernelID including a possibly failed catalog fetch. -/
def getKernelIDF (r : Except LErr (List Kernel)) (name : String) : Except LErr Int :=
  match r with
  | .error e => .error e
  | .ok ks => getKernelID ks name

/-- getRegionName including a possibly failed catalog fetch. -/
def getRegionNameF (r : Except LErr (List DataCenter)) (regionId : Int) : Except LErr String :=
  match r with
  | .error e => .error e
  | .ok rs => getRegionName rs regionId

/-- getSize including a possibly failed catalog fetch. -/
def getSizeF (r : Except LErr (List LinodePlan)) (sizeId : Int) : Except LErr Int :=
  match r with
  | .error e => .error e
  | .ok ps => getSize ps sizeId

/-- getSizeId including a possibly failed catalog fetch. -/
def getSizeIdF (r : Except LErr (List LinodePlan)) (size : Int) : Except LErr Int :=
  match r with
  | .error e => .error e
  | .ok ps => getSizeId ps size

/-- getPlanDiskSize including a possibly failed catalog fetch. -/
def getPlanDiskSizeF (r : Except LErr (List LinodePlan)) (planID : Int) : Except LErr Int :=
  match r with
  | .error e => .error e
  | .ok ps => getPlanDiskSize ps planID

/-- getTotalDiskSize including a possibly failed Disk.List call; mirrors
the Go (value, error) return with -1 as the error-path value. -/
def getTotalDiskSizeGo (r : Except LErr (List Disk)) : Int × Option LErr :=
  match r with
  | .error e => (-1, some e)
  | .ok ds => (getTotalDiskSize ds, none)

/-- getBiggestDisk including a possibly failed Disk.List call; mirrors the
Go (id, size, error) return with -1 values on the error path. -/
def getBiggestDiskGo (r : Except LErr (List Disk)) : Int × Int × Option LErr :=
  match r with
  | .error e => (-1, -1, some e)
  | .ok ds => ((getBiggestDisk ds).1, (getBiggestDisk ds).2, none)

/-! Job Waiter (waitForJobsToComplete / waitForJobsToCompleteWaitMinutes).
Wall-clock time is modelled in whole seconds: each loop iteration polls the
job list instantaneously and then sleeps exactly one second, which is the
code's poll granularity. jobsAt n is the remote job list returned by the
poll that happens after n sleeps. -/

/-- Convergence test of one poll: the Go loop sets complete to false when
any job's HostFinishDt is unset. -/
def jobsComplete (jobs : List Job) : Bool :=
  jobs.foldl (fun c j => if !j.hostFinishDtSet then false else c) true

/-- Outcome of a wait: success or timeout (each recording elapsed sleeps),
or a propagated job-list error. -/
inductive WaitRes where
  | done (sleeps : Nat)
  | timedOut (sleeps : Nat)
  | listFailed (e : LErr)
deriving DecidableEq

/-- The poll loop shared by both waiters: poll, return on convergence,
sleep one second, time out once elapsed time exceeds the deadline. The
fuel argument only guarantees termination; none means fuel ran out. -/
def waitLoopAux (jobsAt : Nat → Except LErr (List Job)) (deadlineSecs : Nat) :
    Nat → Nat → Option WaitRes
  | 0, _ => none
  | fuel + 1, k =>
    match jobsAt k with
    | .error e => some (.listFailed e)
    | .ok js =>
      if jobsComplete js then some (.done k)
      else if k + 1 > deadlineSecs then some (.timedOut (k + 1))
      else waitLoopAux jobsAt deadlineSecs fuel (k + 1)

/-- waitForJobsToCompleteWaitMinutes: deadline of waitMinutes minutes. -/
def waitForJobsToCompleteWaitMinutes (jobsAt : Nat → Except LErr (List Job))
    (waitMinutes : Nat) : Option WaitRes :=
  waitLoopAux jobsAt (60 * waitMinutes) (60 * waitMinutes + 2) 0

/-- waitForJobsToComplete: fixed 5-minute deadline. -/
def waitForJobsToComplete (jobsAt : Nat → Except LErr (List Job)) : Option WaitRes :=
  waitLoopAux jobsAt 300 302 0

/-! Resize path (changeLinodeSize). The remote state it consults is
collected in SizeEnv: the cached plan list (whose fetch can fail), the
Disk.List response for the instance, and the outcomes of the two
convergence waits (each wait is the loop modelled above running against
the remote job state; only its outcome matters here). -/

/-- Remote inputs of one changeLinodeSize run. -/
structure SizeEnv where
  plans : Except LErr (List LinodePlan)
  disks : Except LErr (List Disk)
  wait1 : Except LErr Unit
  wait2 : Except LErr Unit

/-- Go convention adapter: an Except result as a (value, error) pair with
-1 as the error-path value. -/
def goPair (r : Except LErr Int) : Int × Option LErr :=
  match r with
  | .error e => (-1, some e)
  | .ok v => (v, none)

/-- changeLinodeSize, line for line: resolve the target plan; read the
current aggregate disk size and the target plan storage, dropping both
error results exactly as the source does (the second assignment to err
shadows the first and neither is checked); refuse when current exceeds
target; then issue Resize (return value discarded by the source), wait,
optionally grow the biggest disk and wait again, and finally Boot (return
value discarded). The second component is the trace of remote calls
issued. -/
def changeLinodeSize (env : SizeEnv) (linodeId : Int) (sizeRam : Int)
    (diskExpansion : Bool) : Option LErr × List RemoteCall :=
  match goPair (getSizeIdF env.plans sizeRam) with
  | (_, some _) => (some (.notFound "plan-ram"), [])
  | (newPlanID, none) =>
    let currentDiskSize := (getTotalDiskSizeGo env.disks).1
    let newDiskSize := (goPair (getPlanDiskSizeF env.plans newPlanID)).1
    if currentDiskSize > newDiskSize then
      (some (.constraint "disk-shrink"), [])
    else
      let t1 := [RemoteCall.linodeResize linodeId newPlanID]
      match env.wait1 with
      | .error e => (some e, t1)
      | .ok _ =>
        if diskExpansion then
          match getBiggestDiskGo env.disks with
          | (_, _, some e) => (some e, t1)
          | (biggestDiskID, biggestDiskSize, none) =>
            let expandedDiskSize := newDiskSize - (currentDiskSize - biggestDiskSize)
            let t2 := t1 ++ [RemoteCall.diskResize linodeId biggestDiskID expandedDiskSize]
            match env.wait2 with
            | .error e => (some e, t2)
            | .ok _ => (none, t2 ++ [RemoteCall.linodeBoot linodeId 0])
        else
          (none, t1 ++ [RemoteCall.linodeBoot linodeId 0])

/-! Create path, boot-configuration assembly (resourceLinodeLinodeCreate,
disk classification and confArgs construction). -/

/-- ASCII lower-casing of one character. -/
def charLower (c : Char) : Char :=
  if 'A' ≤ c ∧ c ≤ 'Z' then Char.ofNat (c.toNat + 32) else c

/-- Go strings.EqualFold restricted to the ASCII labels in play:
case-insensitive equality via lower-casing both sides. -/
def eqFold (a b : String) : Bool :=
  a.data.map charLower == b.data.map charLower

/-- Disk classification loop of the create path: rootDisk and swapDisk
start at 0 and each listed disk overwrites the matching slot (a disk of
type swap sets swapDisk, any other sets rootDisk). -/
def classifyCreateDisks (disks : List Disk) : Int × Int :=
  disks.foldl
    (fun p d => if eqFold d.dtype "swap" then (p.1, d.diskId) else (d.diskId, p.2))
    (0, 0)

/-- The confArgs map assembled by the create path; the DiskList value is
the comma-joined id list of the Sprintf calls, kept structured here. -/
structure ConfArgs where
  helperNetwork : String
  helperDistro : String
  diskList : List Int
  rootDeviceNum : String
deriving DecidableEq

/-- Boot-configuration argument assembly of the create path: helper flags
from the desired state, a one- or two-element device list depending on the
requested swap size, and the root device number fixed at "1". -/
def makeConfArgs (managePrivateIp helperDistro : Bool) (swapSize : Int)
    (rootDisk swapDisk : Int) : ConfArgs :=
  { helperNetwork := if managePrivateIp then "true" else "false"
    helperDistro := if helperDistro then "true" else "false"
    diskList := if swapSize > 0 then [rootDisk, swapDisk] else [rootDisk]
    rootDeviceNum := "1" }

/-! Read-back (resourceLinodeLinodeRead). The schema.ResourceData writes
are modelled as an ordered assignment log; clearing the stored id
(d.SetId of the empty string) is recorded in idAfter. The SetConnInfo
side channel is not part of the data model and is not recorded. -/

/-- A value written into the schema store. -/
inductive SVal where
  | s (v : String)
  | i (v : Int)
  | b (v : Bool)
deriving DecidableEq

/-- Remote responses consumed by one read-back. Responses whose Go call
can fail (or whose response carries an Errors payload) are Except-wrapped;
the two Disk.List calls of the read path see the same remote state. -/
structure ReadEnv where
  linodes : Except LErr (List LinodeRec)
  ips : Except LErr (List IpRec)
  regions : Except LErr (List DataCenter)
  plans : Except LErr (List LinodePlan)
  disks : Except LErr (List Disk)
  configs : Except LErr (List ConfigRec)
  kernels : Except LErr (List Kernel)

/-- Result of a read-back: the returned error (none means success), the
new stored id when the read rewrote it, and the assignment log. -/
structure ReadOut where
  err : Option LErr
  idAfter : Option String
  sets : List (String × SVal)
deriving DecidableEq

/-- getIps body: the loop keeps the last public and last private address
seen, starting from empty strings. -/
def getIps (ips : List IpRec) : String × String :=
  ips.foldl
    (fun pp ip => if ip.isPublic = 1 then (ip.ipAddress, pp.2) else (pp.1, ip.ipAddress))
    ("", "")

/-- Swap-size scan of the read path: last disk of type swap wins, zero
when none exists. -/
def readSwapSize (disks : List Disk) : Int :=
  disks.foldl (fun acc d => if eqFold d.dtype "swap" then d.size else acc) 0

/-- resourceLinodeLinodeRead, line for line. When the instance list does
not contain exactly one entry the stored id is cleared and the read
returns success; later lookup failures return the error together with the
assignments already performed. -/
def resourceRead (env : ReadEnv) (prevDiskExpansion : Bool) : ReadOut :=
  match env.linodes with
  | .error e => { err := some e, idAfter := none, sets := [] }
  | .ok ls =>
    match ls with
    | [linode] =>
      match env.ips with
      | .error e => { err := some e, idAfter := none, sets := [] }
      | .ok ips =>
        let pp := getIps ips
        let sets1 := [("ip_address", SVal.s pp.1)] ++
          (if pp.2 ≠ "" then
            [("private_networking", SVal.b true), ("private_ip_address", SVal.s pp.2)]
          else
            [("private_networking", SVal.b false)])
        let sets2 := sets1 ++ [("name", SVal.s linode.label), ("group", SVal.s linode.lpmDisplayGroup)]
        match getRegionNameF env.regions linode.dataCenterId with
        | .error e => { err := some e, idAfter := none, sets := sets2 }
        | .ok regionName =>
          let sets3 := sets2 ++ [("region", SVal.s regionName)]
          match getSizeF env.plans linode.planId with
          | .error e => { err := some e, idAfter := none, sets := sets3 }
          | .ok size =>
            let sets4 := sets3 ++ [("size", SVal.i size), ("status", SVal.i linode.status)]
            match getSizeIdF env.plans size with
            | .error e => { err := some e, idAfter := none, sets := sets4 }
            | .ok sizeId =>
              match getPlanDiskSizeF env.plans sizeId with
              | .error e => { err := some e, idAfter := none, sets := sets4 }
              | .ok planStorage =>
                let sets5 := sets4 ++ [("plan_storage", SVal.i planStorage)]
                match env.disks with
                | .error e => { err := some e, idAfter := none, sets := sets5 }
                | .ok ds =>
                  let sets6 := sets5 ++
                    [("plan_storage_utilized", SVal.i (getTotalDiskSize ds)),
                     ("disk_expansion", SVal.s (boolToString prevDiskExpansion)),
                     ("swap_size", SVal.i (readSwapSize ds))]
                  match env.configs with
                  | .error e => { err := some e, idAfter := none, sets := sets6 }
                  | .ok cs =>
                    match cs with
                    | [config] =>
                      let sets7 := sets6 ++
                        [("helper_distro", SVal.s (boolToString config.helperDistro)),
                         ("manage_private_ip_automatically", SVal.s (boolToString config.helperDistro))]
                      match getKernelNameF env.kernels config.kernelId with
                      | .error e => { err := some e, idAfter := none, sets := sets7 }
                      | .ok kernelName =>
                        { err := none, idAfter := none,
                          sets := sets7 ++ [("kernel", SVal.s kernelName)] }
                    | _ => { err := none, idAfter := none, sets := sets6 }
    | _ => { err := none, idAfter := some "", sets := [] }

/-! Update path (resourceLinodeLinodeUpdate). Desired state before and
after the change; d.HasChange of a field is old-versus-new disagreement
and d.Get returns the new value. -/

/-- Desired-state fields consulted by the update path. -/
structure DState where
  name : String
  group : String
  size : Int
  privateNetworking : Bool
  manageIp : Bool
  helperDistro : Bool
  diskExpansion : Bool
deriving DecidableEq

/-- Remote inputs of one update run. -/
structure UpdEnv where
  linodes : Except LErr (List LinodeRec)
  settingsUpdate : Except LErr Unit
  sizeEnv : SizeEnv
  waitAfterResize : Except LErr Unit
  configs : Except LErr (List ConfigRec)
  configUpdate : Except LErr Unit
  addPrivate : Except LErr String
  reboot : Except LErr Unit
  waitAfterReboot : Except LErr Unit

/-- changeLinodeSettings: the updates map collects the diffs of group and
name against the fetched record; a Linode.Update call is issued only when
the map is nonempty. -/
def changeLinodeSettingsU (updRes : Except LErr Unit) (linode : LinodeRec)
    (dName dGroup : String) : Option LErr × List RemoteCall :=
  if dGroup = linode.lpmDisplayGroup ∧ dName = linode.label then
    (none, [])
  else
    match updRes with
    | .error _ => (some (.remote "linode-update"), [.linodeUpdate linode.linodeId])
    | .ok _ => (none, [.linodeUpdate linode.linodeId])

/-- changeLinodeConfig: the updates map collects the helper flags whose
HasChange is set; a Config.Update call is issued only when nonempty. -/
def changeLinodeConfigU (updRes : Except LErr Unit) (config : ConfigRec)
    (hasHelperDistro hasManageIp : Bool) : Option LErr × List RemoteCall :=
  if hasHelperDistro || hasManageIp then
    match updRes with
    | .error _ => (some (.remote "config-update"), [.configUpdate config.configId])
    | .ok _ => (none, [.configUpdate config.configId])
  else
    (none, [])

/-- resourceLinodeLinodeUpdate, line for line up to the final re-read:
fetch the instance, apply name and group changes, apply a size change via
changeLinodeSize followed by the standard wait, fetch and patch the boot
configuration, and finally handle the private-networking flag, where a
request to disable is refused. The trace records every remote call
issued. -/
def resourceUpdate (env : UpdEnv) (id : Int) (dOld dNew : DState) :
    Option LErr × List RemoteCall :=
  let t0 := [RemoteCall.linodeList id]
  match env.linodes with
  | .error _ => (some (.remote "linode-list"), t0)
  | .ok ls =>
    match ls.head? with
    | none => (some (.invariant "linode-index"), t0)
    | some linode =>
      let r1 :=
        if dOld.name ≠ dNew.name ∨ dOld.group ≠ dNew.group then
          changeLinodeSettingsU env.settingsUpdate linode dNew.name dNew.group
        else (none, [])
      match r1.1 with
      | some e => (some e, t0 ++ r1.2)
      | none =>
        let r2 :=
          if dOld.size ≠ dNew.size then
            let rs := changeLinodeSize env.sizeEnv id dNew.size dNew.diskExpansion
            match rs.1 with
            | some e => (some e, rs.2)
            | none =>
              match env.waitAfterResize with
              | .error e => (some e, rs.2)
              | .ok _ => (none, rs.2)
          else (none, [])
        match r2.1 with
        | some e => (some e, t0 ++ r1.2 ++ r2.2)
        | none =>
          let t1 := t0 ++ r1.2 ++ r2.2 ++ [RemoteCall.configList id]
          match env.configs with
          | .error _ => (some (.remote "config-list"), t1)
          | .ok cs =>
            match cs with
            | [config] =>
              let r3 := changeLinodeConfigU env.configUpdate config
                (dOld.helperDistro != dNew.helperDistro)
                (dOld.manageIp != dNew.manageIp)
              match r3.1 with
              | some e => (some e, t1 ++ r3.2)
              | none =>
                let t2 := t1 ++ r3.2
                if dOld.privateNetworking ≠ dNew.privateNetworking then
                  if !dNew.privateNetworking then
                    (some (.unsupported "private-networking"), t2)
                  else
                    let t3 := t2 ++ [RemoteCall.ipAddPrivate id]
                    match env.addPrivate with
                    | .error _ => (some (.remote "add-private"), t3)
                    | .ok _ =>
                      if dNew.manageIp then
                        let t4 := t3 ++ [RemoteCall.linodeReboot id]
                        match env.reboot with
                        | .error _ => (some (.remote "reboot"), t4)
                        | .ok _ =>
                          match env.waitAfterReboot with
                          | .error e => (some e, t4)
                          | .ok _ => (none, t4)
                      else (none, t3)
                else (none, t2)
            | _ => (some (.invariant "config-count"), t1)

/-- Normalization applied by reverse kernel lookup: labels beginning
"Latest" lose their parenthesized qualifier, other names are unchanged. -/
def normalizeKernel (name : String) : String :=
  if strStartsWith name "Latest" then latestKernelStripAll name else name

/-- Desired state before an update that only turns private networking
off. -/
def c7Old : DState :=
  { name := "n", group := "g", size := 1024, privateNetworking := true,
    manageIp := true, helperDistro := true, diskExpansion := false }

/-- Desired state after: identical except private networking is false. -/
def c7New : DState :=
  { name := "n", group := "g", size := 1024, privateNetworking := false,
    manageIp := true, helperDistro := true, diskExpansion := false }

/-- A healthy remote environment for the disable-private-networking
update. -/
def c7Env : UpdEnv :=
  { linodes := .ok [⟨7, "n", "g", 1, 2, 1, 49152⟩],
    settingsUpdate := .ok (),
    sizeEnv := { plans := .ok [], disks := .ok [], wait1 := .ok (), wait2 := .ok () },
    waitAfterResize := .ok (),
    configs := .ok [⟨9, 137, true, true⟩],
    configUpdate := .ok (),
    addPrivate := .ok "192.168.0.2",
    reboot := .ok (),
    waitAfterReboot := .ok () }

/-- A read environment whose instance list is empty: the remote instance
id has vanished. -/
def c9Env : ReadEnv :=
  { linodes := .ok [], ips := .ok [], regions := .ok [], plans := .ok [],
    disks := .ok [], configs := .ok [], kernels := .ok [] }

/-- A fully healthy read environment whose boot configuration has
helper_distro true but helper_network false. -/
def c10Env : ReadEnv :=
  { linodes := .ok [⟨7, "n", "g", 1, 2, 1, 49152⟩],
    ips := .ok [⟨1, "203.0.113.5"⟩],
    regions := .ok [⟨1, "us-east"⟩],
    plans := .ok [⟨2, 1024, 48⟩],
    disks := .ok [⟨11, "ext4", 48640⟩, ⟨12, "swap", 512⟩],
    configs := .ok [⟨9, 137, true, false⟩],
    kernels := .ok [⟨137, "Latest 4.x (4.19.86)"⟩] }

/-! Helper lemmas. -/

theorem strStartsWith_self (s : String) : strStartsWith s s = true := by
  simp [strStartsWith, List.isPrefixOf_iff_prefix]

theorem getRegionID_mem (rs : List DataCenter) (name : String) (i : Int)
    (h : getRegionID rs name = .ok i) : ∃ r ∈ rs, r.dataCenterId = i := by
  induction rs with
  | nil => simp [getRegionID] at h
  | cons r rest ih =>
    simp only [getRegionID] at h
    by_cases hloc : r.location = name
    · rw [if_pos hloc] at h
      exact ⟨r, List.mem_cons_self r rest, by simpa using h⟩
    · rw [if_neg hloc] at h
      obtain ⟨x, hx, hxi⟩ := ih h
      exact ⟨x, List.mem_cons_of_mem r hx, hxi⟩

theorem getSizeId_mem (ps : List LinodePlan) (ram : Int) (i : Int)
    (h : getSizeId ps ram = .ok i) : ∃ p ∈ ps, p.planId = i := by
  induction ps with
  | nil => simp [getSizeId] at h
  | cons p rest ih =>
    simp only [getSizeId] at h
    by_cases hr : p.ram = ram
    · rw [if_pos hr] at h
      exact ⟨p, List.mem_cons_self p rest, by simpa using h⟩
    · rw [if_neg hr] at h
      obtain ⟨x, hx, hxi⟩ := ih h
      exact ⟨x, List.mem_cons_of_mem p hx, hxi⟩

theorem getKernelID_mem (ks : List Kernel) (name : String) (i : Int)
    (h : getKernelID ks name = .ok i) : ∃ k ∈ ks, k.kernelId = i := by
  induction ks with
  | nil => simp [getKernelID] at h
  | cons k rest ih =>
    simp only [getKernelID] at h
    by_cases hL : strStartsWith name "Latest" = true
    · rw [if_pos hL] at h
      by_cases hk : strStartsWith k.label name = true
      · rw [if_pos hk] at h
        exact ⟨k, List.mem_cons_self k rest, by simpa using h⟩
      · rw [if_neg hk] at h
        obtain ⟨x, hx, hxi⟩ := ih h
        exact ⟨x, List.mem_cons_of_mem k hx, hxi⟩
    · rw [if_neg hL] at h
      by_cases hk : k.label = name
      · rw [if_pos hk] at h
        exact ⟨k, List.mem_cons_self k rest, by simpa using h⟩
      · rw [if_neg hk] at h
        obtain ⟨x, hx, hxi⟩ := ih h
        exact ⟨x, List.mem_cons_of_mem k hx, hxi⟩

theorem region_roundtrip (rs : List DataCenter) (name : String) (i : Int)
    (hinj : rs.Pairwise (fun a b => a.dataCenterId ≠ b.dataCenterId))
    (h : getRegionID rs name = .ok i) : getRegionName rs i = .ok name := by
  induction rs with
  | nil => simp [getRegionID] at h
  | cons r rest ih =>
    rw [List.pairwise_cons] at hinj
    obtain ⟨hr, hrest⟩ := hinj
    simp only [getRegionID] at h
    simp only [getRegionName]
    by_cases hloc : r.location = name
    · rw [if_pos hloc] at h
      have hid : r.dataCenterId = i := by simpa using h
      rw [if_pos hid, hloc]
    · rw [if_neg hloc] at h
      obtain ⟨x, hx, hxi⟩ := getRegionID_mem rest name i h
      have hne : r.dataCenterId ≠ i := hxi ▸ hr x hx
      rw [if_neg hne]
      exact ih hrest h

theorem size_roundtrip (ps : List LinodePlan) (ram : Int) (i : Int)
    (hinj : ps.Pairwise (fun a b => a.planId ≠ b.planId))
    (h : getSizeId ps ram = .ok i) : getSize ps i = .ok ram := by
  induction ps with
  | nil => simp [getSizeId] at h
  | cons p rest ih =>
    rw [List.pairwise_cons] at hinj
    obtain ⟨hp, hrest⟩ := hinj
    simp only [getSizeId] at h
    simp only [getSize]
    by_cases hr : p.ram = ram
    · rw [if_pos hr] at h
      have hid : p.planId = i := by simpa using h
      rw [if_pos hid, hr]
    · rw [if_neg hr] at h
      obtain ⟨x, hx, hxi⟩ := getSizeId_mem rest ram i h
      have hne : p.planId ≠ i := hxi ▸ hp x hx
      rw [if_neg hne]
      exact ih hrest h

theorem kernel_roundtrip (ks : List Kernel) (name : String)
    (hinj : ks.Pairwise (fun a b => a.kernelId ≠ b.kernelId))
    (hmem : ∃ k ∈ ks, k.label = name)
    (hclosed : strStartsWith name "Latest" = true →
      ∀ k ∈ ks, strStartsWith k.label name = true → k.label = name) :
    ∃ i, getKernelID ks name = .ok i ∧
      getKernelName ks i = .ok (normalizeKernel name) := by
  induction ks with
  | nil => simp at hmem
  | cons k rest ih =>
    rw [List.pairwise_cons] at hinj
    obtain ⟨hk1, hrest⟩ := hinj
    by_cases hL : strStartsWith name "Latest" = true
    · by_cases hpre : strStartsWith k.label name = true
      · have hlab : k.label = name := hclosed hL k (List.mem_cons_self k rest) hpre
        refine ⟨k.kernelId, ?_, ?_⟩
        · simp only [getKernelID]
          rw [if_pos hL, if_pos hpre]
        · simp only [getKernelName]
          rw [if_pos trivial]
          have hkL : strStartsWith k.label "Latest" = true := by rw [hlab]; exact hL
          rw [if_pos hkL, hlab]
          simp [normalizeKernel, hL]
      · have hmem2 : ∃ x ∈ rest, x.label = name := by
          obtain ⟨x, hx, hxl⟩ := hmem
          rcases List.mem_cons.mp hx with rfl | hx2
          · exact absurd (by rw [hxl]; exact strStartsWith_self name) hpre
          · exact ⟨x, hx2, hxl⟩
        obtain ⟨i, hid, hname⟩ := ih hrest hmem2
          (fun h2 x hx hp => hclosed h2 x (List.mem_cons_of_mem k hx) hp)
        refine ⟨i, ?_, ?_⟩
        · simp only [getKernelID]
          rw [if_pos hL, if_neg hpre]
          exact hid
        · obtain ⟨x, hx, hxi⟩ := getKernelID_mem rest name i hid
          have hne : k.kernelId ≠ i := hxi ▸ hk1 x hx
          simp only [getKernelName]
          rw [if_neg hne]
          exact hname
    · by_cases hlab : k.label = name
      · refine ⟨k.kernelId, ?_, ?_⟩
        · simp only [getKernelID]
          rw [if_neg hL, if_pos hlab]
        · simp only [getKernelName]
          rw [if_pos trivial]
          have hkL : strStartsWith k.label "Latest" = false := by
            rw [hlab]
            exact Bool.not_eq_true _ ▸ hL
          rw [if_neg (by simp [hkL]), hlab]
          simp [normalizeKernel, hL]
      · have hmem2 : ∃ x ∈ rest, x.label = name := by
          obtain ⟨x, hx, hxl⟩ := hmem
          rcases List.mem_cons.mp hx with rfl | hx2
          · exact absurd hxl hlab
          · exact ⟨x, hx2, hxl⟩
        obtain ⟨i, hid, hname⟩ := ih hrest hmem2
          (fun h2 x hx hp => hclosed h2 x (List.mem_cons_of_mem k hx) hp)
        refine ⟨i, ?_, ?_⟩
        · simp only [getKernelID]
          rw [if_neg hL, if_neg hlab]
          exact hid
        · obtain ⟨x, hx, hxi⟩ := getKernelID_mem rest name i hid
          have hne : k.kernelId ≠ i := hxi ▸ hk1 x hx
          simp only [getKernelName]
          rw [if_neg hne]
          exact hname

theorem waitLoopAux_done (jobsAt : Nat → Except LErr (List Job)) (d : Nat) :
    ∀ (n k fuel : Nat) (jsn : List Job),
      jobsAt (k + n) = .ok jsn → jobsComplete jsn = true →
      (∀ i, k ≤ i → i < k + n → ∃ js, jobsAt i = .ok js ∧ jobsComplete js = false) →
      k + n ≤ d → n < fuel →
      waitLoopAux jobsAt d fuel k = some (.done (k + n)) := by
  intro n
  induction n with
  | zero =>
    intro k fuel jsn hok hc _ _ hfuel
    match fuel, hfuel with
    | f + 1, _ =>
      rw [Nat.add_zero] at hok
      simp only [waitLoopAux, hok, hc, if_true]
      rw [Nat.add_zero]
  | succ m ih =>
    intro k fuel jsn hok hc hinc hle hfuel
    obtain ⟨js, hjs, hjsf⟩ := hinc k (Nat.le_refl k) (by omega)
    match fuel, hfuel with
    | f + 1, _ =>
      have hshift : k + (m + 1) = (k + 1) + m := by omega
      have hnotto : ¬ (k + 1 > d) := by omega
      simp only [waitLoopAux, hjs, hjsf]
      rw [if_neg (by simp), if_neg hnotto]
      rw [hshift] at hok hle ⊢
      exact ih (k + 1) f jsn hok hc
        (fun i h1 h2 => hinc i (by omega) (by omega)) hle (by omega)

theorem waitLoopAux_timedOut (jobsAt : Nat → Except LErr (List Job)) (d : Nat)
    (hinc : ∀ i, ∃ js, jobsAt i = .ok js ∧ jobsComplete js = false) :
    ∀ (fuel k : Nat), k ≤ d → d + 2 - k ≤ fuel →
      waitLoopAux jobsAt d fuel k = some (.timedOut (d + 1)) := by
  intro fuel
  induction fuel with
  | zero => intro k hk hf; omega
  | succ f ih =>
    intro k hk hf
    obtain ⟨js, hjs, hjsf⟩ := hinc k
    simp only [waitLoopAux, hjs, hjsf]
    rw [if_neg (by simp)]
    by_cases hkd : k + 1 > d
    · rw [if_pos hkd]
      have : k = d := by omega
      rw [this]
    · rw [if_neg hkd]
      exact ih (k + 1) (by omega) (by omega)

/-! Claim theorems. -/

/-- C1: whenever the current aggregate volume size (sum of attached disk
sizes in MB) exceeds the target plan's storage allowance, changeLinodeSize
fails with the constraint error and its remote-call trace is empty, so in
particular no remote resize call was issued. -/
theorem C1_resize_constraint_guard (env : SizeEnv) (lid ram pid cur nd : Int)
    (exp : Bool)
    (hplan : getSizeIdF env.plans ram = .ok pid)
    (hcur : getTotalDiskSizeGo env.disks = (cur, none))
    (hnd : getPlanDiskSizeF env.plans pid = .ok nd)
    (hgt : cur > nd) :
    changeLinodeSize env lid ram exp = (some (.constraint "disk-shrink"), []) := by
  simp only [changeLinodeSize, hplan, goPair, hcur, hnd]
  rw [if_pos hgt]

/-- C1 witness: an instance with aggregate 40960 MB resized toward a plan
with 20480 MB of storage fails with the constraint error before any
remote call. -/
theorem C1_resize_constraint_guard_witness :
    changeLinodeSize ⟨.ok [⟨2, 1024, 20⟩], .ok [⟨1, "ext4", 40960⟩], .ok (), .ok ()⟩
        7 1024 false
      = (some (.constraint "disk-shrink"), []) :=
  C1_resize_constraint_guard _ 7 1024 2 40960 20480 false (by rfl) (by rfl) (by rfl)
    (by decide)

/-- C2: a resize with disk expansion enabled that passes the safety check
grows the biggest disk to target plan storage minus (current aggregate
minus the biggest disk's current size), as recorded in the issued
Disk.Resize call. -/
theorem C2_disk_expansion_size (env : SizeEnv) (lid ram pid cur nd bid bsz : Int)
    (hplan : getSizeIdF env.plans ram = .ok pid)
    (hcur : getTotalDiskSizeGo env.disks = (cur, none))
    (hnd : getPlanDiskSizeF env.plans pid = .ok nd)
    (hle : ¬ cur > nd)
    (hw1 : env.wait1 = .ok ())
    (hbig : getBiggestDiskGo env.disks = (bid, bsz, none))
    (hw2 : env.wait2 = .ok ()) :
    changeLinodeSize env lid ram true
      = (none, [.linodeResize lid pid, .diskResize lid bid (nd - (cur - bsz)),
                 .linodeBoot lid 0]) := by
  simp only [changeLinodeSize, hplan, goPair, hcur, hnd]
  rw [if_neg hle]
  simp [hw1, hbig, hw2]

/-- C2 witness: current aggregate 10240 MB, one volume of 10240 MB,
target plan storage 40960 MB: the computed new size is exactly 40960. -/
theorem C2_disk_expansion_size_witness :
    changeLinodeSize ⟨.ok [⟨2, 1024, 40⟩], .ok [⟨5, "ext4", 10240⟩], .ok (), .ok ()⟩
        7 1024 true
      = (none, [.linodeResize 7 2, .diskResize 7 5 40960, .linodeBoot 7 0]) :=
  C2_disk_expansion_size _ 7 1024 2 10240 40960 5 10240 (by rfl) (by rfl) (by rfl)
    (by decide) (by rfl) (by rfl) (by rfl)

/-- C8 counterexample: the Disk.List error in changeLinodeSize is a remote
call whose error result is discarded: with a failing Disk.List the resize
still proceeds and returns success, so not every remote-call error is
surfaced to the caller. -/
theorem C8_swallowed_remote_error :
    changeLinodeSize ⟨.ok [⟨2, 1024, 40⟩], .error (.remote "disk-list"), .ok (), .ok ()⟩
        7 1024 false
      = (none, [.linodeResize 7 2, .linodeBoot 7 0]) := by
  rfl

/-- C8 amended: in changeLinodeSize the errors of the plan lookup, of both
convergence waits and of getBiggestDisk are surfaced (success implies all
of them succeeded), while the error results of getTotalDiskSize,
getPlanDiskSize, Linode.Resize, Disk.Resize and Linode.Boot are discarded
by the code. -/
theorem C8_error_propagation_partial (env : SizeEnv) (lid ram : Int) (exp : Bool)
    (hok : (changeLinodeSize env lid ram exp).1 = none) :
    (∃ pid, getSizeIdF env.plans ram = .ok pid) ∧
      env.wait1 = .ok () ∧
      (exp = true → (getBiggestDiskGo env.disks).2.2 = none ∧ env.wait2 = .ok ()) := by
  rcases hsz : getSizeIdF env.plans ram with e | pid
  · rw [show changeLinodeSize env lid ram exp = (some (.notFound "plan-ram"), []) from by
      simp [changeLinodeSize, hsz, goPair]] at hok
    simp at hok
  · have hg1 : goPair (Except.ok pid : Except LErr Int) = (pid, (none : Option LErr)) := rfl
    rcases hpd0 : goPair (getPlanDiskSizeF env.plans pid) with ⟨nd, oe⟩
    rcases htd0 : getTotalDiskSizeGo env.disks with ⟨cur, oe2⟩
    simp only [changeLinodeSize, hsz, hg1, hpd0, htd0] at hok
    refine ⟨⟨pid, rfl⟩, ?_⟩
    by_cases hgt : cur > nd
    · rw [if_pos hgt] at hok
      simp at hok
    · rw [if_neg hgt] at hok
      rcases hw1 : env.wait1 with e1 | u1
      · simp only [hw1] at hok
        simp at hok
      · obtain rfl : u1 = () := rfl
        simp only [hw1] at hok
        refine ⟨rfl, ?_⟩
        intro hexp
        subst hexp
        rw [if_pos (rfl : true = true)] at hok
        rcases hbg0 : getBiggestDiskGo env.disks with ⟨bid, bsz, _ | e3⟩
        · simp only [hbg0] at hok
          rcases hw2 : env.wait2 with e2 | u2
          · simp only [hw2] at hok
            simp at hok
          · obtain rfl : u2 = () := rfl
            exact ⟨rfl, rfl⟩
        · simp only [hbg0] at hok
          simp at hok

/-- C8 amended witness: a fully healthy disk-expansion resize, with the
surfaced sub-calls shown to have succeeded. -/
theorem C8_error_propagation_partial_witness :
    (∃ pid, getSizeIdF (Except.ok [(⟨2, 1024, 40⟩ : LinodePlan)]) 1024 = .ok pid) ∧
      (Except.ok () : Except LErr Unit) = .ok () ∧
      (true = true →
        (getBiggestDiskGo (.ok [⟨5, "ext4", 10240⟩])).2.2 = none ∧
          (Except.ok () : Except LErr Unit) = .ok ()) :=
  C8_error_propagation_partial
    ⟨.ok [⟨2, 1024, 40⟩], .ok [⟨5, "ext4", 10240⟩], .ok (), .ok ()⟩ 7 1024 true (by rfl)

/-- C3: the Job Waiter returns success at the first poll at which every
job has its completion timestamp set, with elapsed sleeps equal to that
poll's index (in particular zero sleeps when the first poll converges),
and when some job is perpetually unset it times out with elapsed time of
exactly the deadline plus one second of poll granularity. -/
theorem C3_job_waiter :
    (∀ (jobsAt : Nat → Except LErr (List Job)) (m n : Nat) (jsn : List Job),
      jobsAt n = .ok jsn → jobsComplete jsn = true →
      (∀ i, i < n → ∃ js, jobsAt i = .ok js ∧ jobsComplete js = false) →
      n ≤ 60 * m →
      waitForJobsToCompleteWaitMinutes jobsAt m = some (.done n)) ∧
    (∀ (jobsAt : Nat → Except LErr (List Job)) (m : Nat),
      (∀ i, ∃ js, jobsAt i = .ok js ∧ jobsComplete js = false) →
      waitForJobsToCompleteWaitMinutes jobsAt m = some (.timedOut (60 * m + 1))) := by
  constructor
  · intro jobsAt m n jsn hok hc hinc hle
    have h := waitLoopAux_done jobsAt (60 * m) n 0 (60 * m + 2) jsn
      (by simpa using hok) hc (fun i h1 h2 => hinc i (by omega)) (by omega) (by omega)
    simpa [waitForJobsToCompleteWaitMinutes] using h
  · intro jobsAt m hinc
    exact waitLoopAux_timedOut jobsAt (60 * m) hinc (60 * m + 2) 0 (by omega) (by omega)

/-- C3 witness: with every job complete on the first poll the five-minute
waiter succeeds after zero sleeps; with a perpetually unset job it times
out after 301 elapsed seconds (deadline 300 plus one second of
granularity). -/
theorem C3_job_waiter_witness :
    waitForJobsToCompleteWaitMinutes (fun _ => .ok [⟨true⟩, ⟨true⟩]) 5 = some (.done 0) ∧
    waitForJobsToCompleteWaitMinutes (fun _ => .ok [⟨true⟩, ⟨false⟩]) 5
      = some (.timedOut 301) := by
  constructor
  · exact C3_job_waiter.1 _ 5 0 _ rfl rfl (fun i hi => absurd hi (Nat.not_lt_zero i))
      (by omega)
  · exact C3_job_waiter.2 _ 5 (fun i => ⟨[⟨true⟩, ⟨false⟩], rfl, rfl⟩)

/-- C4: a kernel name beginning with "Latest" is resolved by prefix match
against the catalog labels (the first entry whose label starts with the
requested name wins), and reverse resolution of the entry labeled
"Latest 4.x (4.19.86)" strips the parenthesized qualifier, returning
exactly "Latest 4.x"; that entry is also found by the forward prefix
match for "Latest 4.x". -/
theorem C4_latest_kernel_matching :
    (∀ (ks : List Kernel) (name : String), strStartsWith name "Latest" = true →
      getKernelID ks name =
        (match ks.find? (fun k => strStartsWith k.label name) with
         | some k => .ok k.kernelId
         | none => .error (.notFound "kernel"))) ∧
    getKernelName [⟨137, "Latest 4.x (4.19.86)"⟩] 137 = .ok "Latest 4.x" ∧
    getKernelID [⟨3, "Other"⟩, ⟨137, "Latest 4.x (4.19.86)"⟩] "Latest 4.x" = .ok 137 := by
  refine ⟨?_, by rfl, by rfl⟩
  intro ks name hL
  induction ks with
  | nil => simp [getKernelID]
  | cons k rest ih =>
    simp only [getKernelID, hL, if_true, List.find?]
    cases hk : strStartsWith k.label name with
    | true => simp [hk]
    | false => simp [hk, ih]

/-- C4 witness: the prefix-match characterization applied to the name
"Latest 4", which is a strict prefix of the catalog label. -/
theorem C4_latest_kernel_matching_witness :
    getKernelID [⟨3, "Other"⟩, ⟨137, "Latest 4.x (4.19.86)"⟩] "Latest 4" = .ok 137 := by
  have h := C4_latest_kernel_matching.1
    [⟨3, "Other"⟩, ⟨137, "Latest 4.x (4.19.86)"⟩] "Latest 4" (by rfl)
  exact h.trans rfl

/-- C5 counterexample: in a catalog with distinct ids and distinct labels
where one "Latest" label is a strict prefix of another, resolving the
name "Latest A" (present in the catalog) matches the earlier entry
"Latest AB" by prefix, and resolving that id back yields "Latest AB",
which differs from the original name even after qualifier stripping (the
name has no qualifier to strip). -/
theorem C5_roundtrip_counterexample :
    getKernelID [⟨1, "Latest AB"⟩, ⟨2, "Latest A"⟩] "Latest A" = .ok 1 ∧
    getKernelName [⟨1, "Latest AB"⟩, ⟨2, "Latest A"⟩] 1 = .ok "Latest AB" ∧
    normalizeKernel "Latest A" = "Latest A" ∧
    "Latest AB" ≠ "Latest A" := by
  exact ⟨by rfl, by rfl, by rfl, by decide⟩

/-- C5 amended: name-to-id-to-name round trips hold for every catalog
kind on well-formed catalogs: for regions and plan sizes it needs only
pairwise-distinct ids; for kernels it additionally needs that no catalog
label beginning "Latest" extends the requested name as a strict prefix
(otherwise the documented prefix matching selects a different entry), and
the returned name is the original modulo the documented stripping of the
parenthesized qualifier on floating-kernel labels. -/
theorem C5_roundtrip_amended :
    (∀ (rs : List DataCenter) (name : String) (i : Int),
      rs.Pairwise (fun a b => a.dataCenterId ≠ b.dataCenterId) →
      getRegionID rs name = .ok i → getRegionName rs i = .ok name) ∧
    (∀ (ps : List LinodePlan) (ram i : Int),
      ps.Pairwise (fun a b => a.planId ≠ b.planId) →
      getSizeId ps ram = .ok i → getSize ps i = .ok ram) ∧
    (∀ (ks : List Kernel) (name : String),
      ks.Pairwise (fun a b => a.kernelId ≠ b.kernelId) →
      (∃ k ∈ ks, k.label = name) →
      (strStartsWith name "Latest" = true →
        ∀ k ∈ ks, strStartsWith k.label name = true → k.label = name) →
      ∃ i, getKernelID ks name = .ok i ∧
        getKernelName ks i = .ok (normalizeKernel name)) :=
  ⟨fun rs name i hinj h => region_roundtrip rs name i hinj h,
   fun ps ram i hinj h => size_roundtrip ps ram i hinj h,
   fun ks name hinj hmem hcl => kernel_roundtrip ks name hinj hmem hcl⟩

/-- C5 amended witness: round trips on concrete one-entry catalogs of
each kind, including a floating kernel label with a qualifier. -/
theorem C5_roundtrip_amended_witness :
    getRegionName [⟨6, "us-east"⟩] 6 = .ok "us-east" ∧
    getSize [⟨2, 1024, 40⟩] 2 = .ok 1024 ∧
    (∃ i, getKernelID [⟨137, "Latest 4.x (4.19.86)"⟩] "Latest 4.x (4.19.86)" = .ok i ∧
      getKernelName [⟨137, "Latest 4.x (4.19.86)"⟩] i
        = .ok (normalizeKernel "Latest 4.x (4.19.86)")) := by
  refine ⟨?_, ?_, ?_⟩
  · exact C5_roundtrip_amended.1 _ "us-east" 6 (by simp) rfl
  · exact C5_roundtrip_amended.2.1 _ 1024 2 (by simp) rfl
  · exact C5_roundtrip_amended.2.2 _ "Latest 4.x (4.19.86)" (by simp)
      ⟨⟨137, "Latest 4.x (4.19.86)"⟩, by simp, rfl⟩
      (by intro _ k hk _; rw [List.mem_singleton.mp hk])

/-- C6: the boot configuration assembled on create lists exactly the root
device when the requested swap size is zero and exactly the root then the
swap device when the swap size is positive, and the root device number is
always the string one. -/
theorem C6_boot_config_devices (mpi hd : Bool) (swapSize : Int) (disks : List Disk) :
    (swapSize = 0 →
      (makeConfArgs mpi hd swapSize (classifyCreateDisks disks).1
          (classifyCreateDisks disks).2).diskList
        = [(classifyCreateDisks disks).1]) ∧
    (swapSize > 0 →
      (makeConfArgs mpi hd swapSize (classifyCreateDisks disks).1
          (classifyCreateDisks disks).2).diskList
        = [(classifyCreateDisks disks).1, (classifyCreateDisks disks).2]) ∧
    (makeConfArgs mpi hd swapSize (classifyCreateDisks disks).1
        (classifyCreateDisks disks).2).rootDeviceNum = "1" := by
  refine ⟨?_, ?_, ?_⟩
  · intro h
    simp [makeConfArgs, h]
  · intro h
    simp [makeConfArgs, h]
  · simp [makeConfArgs]

/-- C6 witness: with one root disk and swap size zero the device list is
the single root id; with a root and a swap disk and swap size 512 it is
the root id then the swap id. -/
theorem C6_boot_config_devices_witness :
    (makeConfArgs true true 0 (classifyCreateDisks [⟨11, "ext4", 48640⟩]).1
        (classifyCreateDisks [⟨11, "ext4", 48640⟩]).2).diskList = [11] ∧
    (makeConfArgs true true 512
        (classifyCreateDisks [⟨11, "ext4", 48128⟩, ⟨12, "swap", 512⟩]).1
        (classifyCreateDisks [⟨11, "ext4", 48128⟩, ⟨12, "swap", 512⟩]).2).diskList
      = [11, 12] := by
  constructor
  · rw [(C6_boot_config_devices true true 0 [⟨11, "ext4", 48640⟩]).1 rfl]
    decide
  · rw [(C6_boot_config_devices true true 512
      [⟨11, "ext4", 48128⟩, ⟨12, "swap", 512⟩]).2.1 (by decide)]
    decide

/-- C7 counterexample: an update that changes private networking from
true to false does fail with the unsupported-operation error, but its
remote-call trace is not empty: the instance fetch and the boot
configuration fetch were already issued, so the update does not issue no
remote call. -/
theorem C7_disable_private_networking_counterexample :
    resourceUpdate c7Env 7 c7Old c7New
      = (some (.unsupported "private-networking"),
         [.linodeList 7, .configList 7]) ∧
    (resourceUpdate c7Env 7 c7Old c7New).2 ≠ [] := by
  exact ⟨by rfl, by decide⟩

/-- C7 amended: an update whose only change is private networking going
from true to false fails with the unsupported-operation error and issues
no state-mutating remote call and no call of the private-networking step
itself (no address allocation, no reboot); only the read-only instance
and configuration fetches of the earlier update steps appear in the
trace. -/
theorem C7_disable_private_networking_amended (env : UpdEnv) (id : Int)
    (dOld dNew : DState) (linode : LinodeRec) (config : ConfigRec)
    (hl : env.linodes = .ok [linode])
    (hc : env.configs = .ok [config])
    (hname : dOld.name = dNew.name) (hgroup : dOld.group = dNew.group)
    (hsize : dOld.size = dNew.size)
    (hhd : dOld.helperDistro = dNew.helperDistro)
    (hmpi : dOld.manageIp = dNew.manageIp)
    (hpnO : dOld.privateNetworking = true)
    (hpnN : dNew.privateNetworking = false) :
    resourceUpdate env id dOld dNew
      = (some (.unsupported "private-networking"),
         [.linodeList id, .configList id]) := by
  simp [resourceUpdate, hl, hc, hname, hgroup, hsize, hhd, hmpi, hpnO, hpnN,
    changeLinodeConfigU]

/-- C7 amended witness: the amended statement at the concrete
disable-only update. -/
theorem C7_disable_private_networking_amended_witness :
    resourceUpdate c7Env 9 c7Old c7New
      = (some (.unsupported "private-networking"),
         [.linodeList 9, .configList 9]) :=
  C7_disable_private_networking_amended c7Env 9 c7Old c7New
    ⟨7, "n", "g", 1, 2, 1, 49152⟩ ⟨9, 137, true, true⟩
    rfl rfl rfl rfl rfl rfl rfl rfl rfl

/-- C9 counterexample: a read-back whose instance list comes back empty
(the id has vanished) returns success with the stored id cleared; it does
not surface any error, so in particular no NotFoundError reaches the
caller. -/
theorem C9_vanished_instance_counterexample :
    resourceRead c9Env false = { err := none, idAfter := some "", sets := [] } := by
  rfl

/-- C9 amended: whenever the instance list of a read-back does not
contain exactly one entry, the read clears the stored id (signalling
removal to the caller) and returns success with no assignments; no
NotFoundError is raised. -/
theorem C9_vanished_instance_amended (env : ReadEnv) (prevDE : Bool)
    (ls : List LinodeRec) (hl : env.linodes = .ok ls) (hlen : ls.length ≠ 1) :
    resourceRead env prevDE = { err := none, idAfter := some "", sets := [] } := by
  unfold resourceRead
  rw [hl]
  rcases ls with _ | ⟨a, rest⟩
  · rfl
  · rcases rest with _ | ⟨b, t⟩
    · exact absurd rfl hlen
    · rfl

/-- C9 amended witness: a read-back returning two instances clears the id
and succeeds. -/
theorem C9_vanished_instance_amended_witness :
    resourceRead
      { linodes := .ok [⟨1, "a", "g", 1, 2, 1, 0⟩, ⟨2, "b", "g", 1, 2, 1, 0⟩],
        ips := .ok [], regions := .ok [], plans := .ok [], disks := .ok [],
        configs := .ok [], kernels := .ok [] } true
      = { err := none, idAfter := some "", sets := [] } :=
  C9_vanished_instance_amended _ true _ rfl (by decide)

/-- C10: on a successful read-back finding exactly one boot
configuration, both the distro-helper and the automatic-network-management
assignments are written from the configuration's distro-helper field, so
the two reported values are equal regardless of the remote network-helper
field. -/
theorem C10_helper_flags_coupled (env : ReadEnv) (prevDE : Bool)
    (linode : LinodeRec) (ips : List IpRec) (regionName : String)
    (size sizeId planStorage : Int) (ds : List Disk) (config : ConfigRec)
    (hl : env.linodes = .ok [linode])
    (hi : env.ips = .ok ips)
    (hr : getRegionNameF env.regions linode.dataCenterId = .ok regionName)
    (hs : getSizeF env.plans linode.planId = .ok size)
    (hsi : getSizeIdF env.plans size = .ok sizeId)
    (hps : getPlanDiskSizeF env.plans sizeId = .ok planStorage)
    (hd : env.disks = .ok ds)
    (hc : env.configs = .ok [config]) :
    (resourceRead env prevDE).sets.lookup "helper_distro"
        = some (SVal.s (boolToString config.helperDistro)) ∧
    (resourceRead env prevDE).sets.lookup "manage_private_ip_automatically"
        = some (SVal.s (boolToString config.helperDistro)) := by
  simp only [resourceRead, hl, hi, hr, hs, hsi, hps, hd, hc]
  cases hk : getKernelNameF env.kernels config.kernelId <;>
    by_cases hp : (getIps ips).2 ≠ "" <;>
    simp [hp, List.lookup]

/-- C10 witness: a healthy read environment whose configuration has
distro helper on but network helper off still reports both flags as
"true". -/
theorem C10_helper_flags_coupled_witness :
    (resourceRead c10Env false).sets.lookup "helper_distro" = some (SVal.s "true") ∧
    (resourceRead c10Env false).sets.lookup "manage_private_ip_automatically"
      = some (SVal.s "true") := by
  have h := C10_helper_flags_coupled c10Env false ⟨7, "n", "g", 1, 2, 1, 49152⟩
    [⟨1, "203.0.113.5"⟩] "us-east" 1024 2 49152
    [⟨11, "ext4", 48640⟩, ⟨12, "swap", 512⟩] ⟨9, 137, true, false⟩
    rfl rfl rfl rfl rfl rfl rfl rfl
  exact h

end TfLinode
